import Mathlib

/-!
Verification of the loader rendering core
(src/core/embed/rust/src/ui/display/loader.rs).

The Rust source is shallowly embedded: machine integers (i32, u16, u8)
become Int or Nat with explicit truncation where a cast occurs, Rust
truncating division and remainder become Int.tdiv and Int.tmod, stateful
loops become folds or structural recursion, and the calls into the display
driver and DMA engine become explicit event lists.  External collaborators
that live outside the embedded file (screen constants, the angle-to-vector
lookup, the clockwise half-plane predicates, the color-table allocator,
the TOIF header parser and the decompressor) are abstracted into an
environment record, and the plain 2D geometry utility type (Rect, Point,
Offset) is modelled from the specification.
-/

namespace Loader

/-- Device-native pixel value (u16 in the source); kept abstract as Nat. -/
abbrev Color := Nat

/-- 2D integer point, as in the geometry utility library. -/
structure Point where
  x : Int
  y : Int
deriving DecidableEq

/-- 2D integer offset (width/height pair), as in the geometry utility library. -/
structure Offset where
  x : Int
  y : Int
deriving DecidableEq

/-- Rectangle given by its top-left (x0, y0) and exclusive bottom-right (x1, y1). -/
structure Rect where
  x0 : Int
  y0 : Int
  x1 : Int
  y1 : Int
deriving DecidableEq

/-- Modelled from the spec: origin point of the geometry utility library. -/
def Point.zero : Point := ⟨0, 0⟩

/-- Modelled from the spec: the all-zero rectangle of the geometry utility library. -/
def Rect.zero : Rect := ⟨0, 0, 0, 0⟩

/-- Modelled from the spec: point containment of the geometry utility library,
half-open on the right and bottom edges. -/
def Rect.contains (r : Rect) (p : Point) : Bool :=
  decide (r.x0 ≤ p.x) && decide (p.x < r.x1) && decide (r.y0 ≤ p.y) && decide (p.y < r.y1)

/-- Modelled from the spec: clamping a rectangle to a limiting rectangle
(used to clamp drawing rectangles to the screen bounds). -/
def Rect.clamp (r limit : Rect) : Rect :=
  ⟨max r.x0 limit.x0, max r.y0 limit.y0, min r.x1 limit.x1, min r.y1 limit.y1⟩

/-- Modelled from the spec: center of a rectangle (integer division of the
coordinate sums; all loader rectangles have nonnegative coordinates sums in
practice, where every division convention agrees). -/
def Rect.center (r : Rect) : Point := ⟨Int.tdiv (r.x0 + r.x1) 2, Int.tdiv (r.y0 + r.y1) 2⟩

/-- Modelled from the spec: rectangle from its top-left corner and a size. -/
def Rect.from_top_left_and_size (p : Point) (size : Offset) : Rect :=
  ⟨p.x, p.y, p.x + size.x, p.y + size.y⟩

/-- Modelled from the spec: rectangle of a given size centered on a point. -/
def Rect.from_center_and_size (p : Point) (size : Offset) : Rect :=
  ⟨p.x - Int.tdiv size.x 2, p.y - Int.tdiv size.y 2,
   p.x - Int.tdiv size.x 2 + size.x, p.y - Int.tdiv size.y 2 + size.y⟩

/-- Width of a rectangle (x1 - x0), as in the geometry utility library. -/
def Rect.width (r : Rect) : Int := r.x1 - r.x0

/-- Truncating cast of an i32 value to u8, as in a Rust as-u8 cast
(low eight bits, two's complement). -/
def u8cast (x : Int) : Nat := (x % 256).toNat

/-- Wrapping subtraction on u8 values, as in Rust u8 subtraction
(release semantics; in every use below the operands are in range and no
wrap occurs). -/
def u8sub (a b : Nat) : Nat := (((a : Int) - (b : Int)) % 256).toNat

/-- Bitwise AND of an i32 value with a small nonnegative mask, computed on
the two's complement representation as Rust does. -/
def i32land (a b : Int) : Int :=
  ((Int.emod a (2 ^ 32)).toNat &&& (Int.emod b (2 ^ 32)).toNat : Nat)

/-- The six precomputed squared-distance thresholds of the loader geometry
(IN_INNER_ANTI, INNER_MIN, INNER_MAX, INNER_OUTER_ANTI, OUTER_OUT_ANTI,
OUTER_MAX in the source).  Modelled from the spec: they are derived from
the configured outer/inner radius constants, which live in the constant
module outside the embedded file; the spec invariant is that they are
strictly increasing. -/
structure LoaderGeometry where
  IN_INNER_ANTI : Int
  INNER_MIN : Int
  INNER_MAX : Int
  INNER_OUTER_ANTI : Int
  OUTER_OUT_ANTI : Int
  OUTER_MAX : Int
deriving DecidableEq

/-- TOIF bitstream pixel formats, from the display collaborator. -/
inductive ToifFormat
  | grayScaleOH
  | grayScaleEH
  | fullColorBE
  | fullColorLE
deriving DecidableEq

/-- Header metadata returned by the TOIF header parser collaborator. -/
structure ToifInfo where
  format : ToifFormat
  width : Nat
  height : Nat
deriving DecidableEq

/-- Environment of external collaborators, abstracted: the screen rectangle,
the maximum icon size constant, the loader geometry thresholds, the
angle-to-vector lookup, the two clockwise half-plane predicates, the
color-table allocator (an indexed 16-entry gradient), the TOIF header
parser (none on an unparseable header) and the decompressor (none on
failure, otherwise the decompressed bytes). -/
structure Ext where
  screen : Rect
  iconMaxSize : Nat
  geom : LoaderGeometry
  get_vector : Int → Point
  is_clockwise_or_equal : Point → Point → Bool
  is_clockwise_or_equal_inc : Point → Point → Bool
  get_color_table : Color → Color → Nat → Color
  toif_info : List Nat → Option ToifInfo
  uncompress : List Nat → Option (List Nat)

/-- Reasons the process aborts in loader_uncompress: the unwrap on TOIF
header parsing, the assert_eq on the format, and the unwrap on
decompression. -/
inductive Abort
  | invalidToif
  | formatMismatch
  | decompressFailed
deriving DecidableEq

/-- The start/end angles computed by get_loader_vectors (source lines
99 to 110): the raw start/end progress, scaled by 360/1000 with Rust
truncating division and reduced with the Rust truncating remainder. -/
def loader_angles (indeterminate : Bool) (progress : Int) : Int × Int :=
  let startProgress := if indeterminate then progress - 100 else 0
  let endProgress := if indeterminate then progress + 100 else progress
  (Int.tmod (Int.tdiv (360 * startProgress) 1000) 360,
   Int.tmod (Int.tdiv (360 * endProgress) 1000) 360)

/-- get_loader_vectors (source lines 98 to 130): maps the progress value and
the indeterminate flag to the pair of arc-delimiting vectors, using the
angle-to-vector lookup collaborator gv. -/
def get_loader_vectors (gv : Int → Point) (indeterminate : Bool) (progress : Int) :
    Point × Point :=
  let angles := loader_angles indeterminate progress
  if indeterminate then
    (gv angles.1, gv angles.2)
  else if progress ≥ 1000 then
    (Point.zero, Point.zero)
  else if progress > 500 then
    (gv angles.2, gv angles.1)
  else
    (gv angles.1, gv angles.2)

/-- The show_all flag computed in loader_rust (source line 231 and 310). -/
def show_all (indeterminate : Bool) (progress : Int) : Bool :=
  !indeterminate && decide (progress ≥ 1000)

/-- The inverted flag computed in loader_rust (source line 232 and 311). -/
def inverted (indeterminate : Bool) (progress : Int) : Bool :=
  !indeterminate && decide (progress > 500)

/-- Active-branch intensity of loader_get_pixel_color_idx (source lines
164 to 176), as a function of the squared radial distance d. -/
def active_intensity (g : LoaderGeometry) (d : Int) : Nat :=
  if d ≤ g.IN_INNER_ANTI then 0
  else if d ≤ g.INNER_MIN then
    u8cast (Int.tdiv (15 * (d - g.IN_INNER_ANTI)) (g.INNER_MIN - g.IN_INNER_ANTI))
  else if d ≤ g.OUTER_OUT_ANTI then 15
  else if d ≤ g.OUTER_MAX then
    u8cast (15 - Int.tdiv (15 * (d - g.OUTER_OUT_ANTI)) (g.OUTER_MAX - g.OUTER_OUT_ANTI))
  else 0

/-- Inactive-branch intensity of loader_get_pixel_color_idx (source lines
177 to 194), as a function of the squared radial distance d.  The final
band subtracts at u8 width, exactly as the source writes
5 - (cast of the scaled quotient). -/
def inactive_intensity (g : LoaderGeometry) (d : Int) : Nat :=
  if d ≤ g.IN_INNER_ANTI then 0
  else if d ≤ g.INNER_MIN then
    u8cast (Int.tdiv (15 * (d - g.IN_INNER_ANTI)) (g.INNER_MIN - g.IN_INNER_ANTI))
  else if d ≤ g.INNER_MAX then 15
  else if d ≤ g.INNER_OUTER_ANTI then
    u8cast (15 - Int.tdiv (10 * (d - g.INNER_MAX)) (g.INNER_OUTER_ANTI - g.INNER_MAX))
  else if d ≤ g.OUTER_OUT_ANTI then 5
  else if d ≤ g.OUTER_MAX then
    u8sub 5 (u8cast (Int.tdiv (5 * (d - g.OUTER_OUT_ANTI)) (g.OUTER_MAX - g.OUTER_OUT_ANTI)))
  else 0

/-- loader_get_pixel_color_idx (source lines 133 to 195): the pixel
classifier.  Computes the pixel vector relative to the center with the
y axis flipped, the squared distance, and the two-sided half-plane
membership test (negated under the inverted flag), then dispatches to the
active or inactive band intensity. -/
def loader_get_pixel_color_idx (e : Ext) (sa inv : Bool) (end_vector n_start : Point)
    (x_c y_c : Int) (center : Point) : Nat :=
  let y_p := -(y_c - center.y)
  let x_p := x_c - center.x
  let vx : Point := ⟨x_p, y_p⟩
  let n_vx : Point := ⟨-y_p, x_p⟩
  let d := y_p * y_p + x_p * x_p
  let included :=
    if inv then
      !(e.is_clockwise_or_equal n_start vx) || !(e.is_clockwise_or_equal_inc n_vx end_vector)
    else
      e.is_clockwise_or_equal n_start vx && e.is_clockwise_or_equal_inc n_vx end_vector
  if sa || included then active_intensity e.geom d else inactive_intensity e.geom d

/-- Events of the software rasterizer: the set_window call, one pixeldata
call per streamed pixel, and the pixeldata_dirty end-of-frame flush. -/
inductive SwEvent
  | setWindow (r : Rect)
  | pixel (c : Color)
  | dirty
deriving DecidableEq

/-- Derived per-call state of the software rasterizer (source lines 207 to
235): the screen-clamped window, the center, the two color tables, the icon
activation data and the classifier inputs. -/
structure SwCtx where
  clamped : Rect
  center : Point
  colortable : Nat → Color
  use_icon : Bool
  icon_area : Rect
  icon_area_clamped : Rect
  icon_width : Int
  icon_data : List Nat
  icon_colortable : Nat → Color
  sa : Bool
  inv : Bool
  end_vector : Point
  n_start : Point

/-- Builds the derived state of the software rasterizer exactly as source
lines 207 to 235 do: clamp the rectangle to the screen, take the center of
the unclamped rectangle, allocate the gradient table, activate the icon
only when both dimensions are at most the maximum icon size, compute the
show_all and inverted flags and the arc vectors, and rotate the start
vector to its normal. -/
def mkSwCtx (e : Ext) (r : Rect) (fg_color bg_color : Color) (progress : Int)
    (indeterminate : Bool) (icon : Option (List Nat × Color × Offset)) : SwCtx :=
  let clamped := r.clamp e.screen
  let center := r.center
  let colortable := e.get_color_table fg_color bg_color
  let iconPart :=
    match icon with
    | some (data, color, size) =>
      if decide (size.x ≤ (e.iconMaxSize : Int)) && decide (size.y ≤ (e.iconMaxSize : Int)) then
        (true, Rect.from_center_and_size center size,
         (Rect.from_center_and_size center size).clamp e.screen, size.x, data,
         e.get_color_table color bg_color)
      else (false, Rect.zero, Rect.zero, 0, ([] : List Nat), colortable)
    | none => (false, Rect.zero, Rect.zero, 0, ([] : List Nat), colortable)
  let vectors := get_loader_vectors e.get_vector indeterminate progress
  { clamped := clamped
    center := center
    colortable := colortable
    use_icon := iconPart.1
    icon_area := iconPart.2.1
    icon_area_clamped := iconPart.2.2.1
    icon_width := iconPart.2.2.2.1
    icon_data := iconPart.2.2.2.2.1
    icon_colortable := iconPart.2.2.2.2.2
    sa := show_all indeterminate progress
    inv := inverted indeterminate progress
    end_vector := vectors.2
    n_start := ⟨-vectors.1.y, vectors.1.x⟩ }

/-- Samples the icon bitmap at a pixel (source lines 248 to 256): one byte
holds two horizontal pixels, the low nibble at even icon column and the
high nibble at odd icon column, and the nibble indexes the icon color
table. -/
def icon_color_at (c : SwCtx) (p : Point) : Color :=
  let x_i := p.x - c.icon_area.x0
  let y_i := p.y - c.icon_area.y0
  let data := c.icon_data.getD (Int.tdiv (i32land x_i 254 + y_i * c.icon_width) 2).toNat 0
  if i32land x_i 1 = 0 then c.icon_colortable (data &&& 15)
  else c.icon_colortable (data >>> 4)

/-- The loop body of the software rasterizer (source lines 239 to 268),
computing the color streamed for one pixel: background by default,
overridden by the icon sample when the icon is active, the pixel is inside
the clamped icon area and inside the inner disk, and otherwise by the
gradient entry of the classifier intensity when inside the clamped
window. -/
def code_pixel (e : Ext) (c : SwCtx) (bg_color : Color) (p : Point) : Color :=
  let step1 : Color × Bool :=
    if c.use_icon && c.icon_area_clamped.contains p then
      let x := p.x - c.center.x
      let y := p.y - c.center.y
      if x * x + y * y ≤ e.geom.IN_INNER_ANTI then (icon_color_at c p, true)
      else (bg_color, false)
    else (bg_color, false)
  if c.clamped.contains p && !step1.2 then
    c.colortable (loader_get_pixel_color_idx e c.sa c.inv c.end_vector c.n_start p.x p.y c.center)
  else step1.1

/-- The list of integers from a up to but excluding b, in increasing order,
as a Rust for-range iterates them. -/
def rangeInt (a b : Int) : List Int :=
  (List.range (b - a).toNat).map (fun k => a + (k : Int))

/-- The positions of a rectangle in row-major order (rows top to bottom,
columns left to right inside a row). -/
def rowMajor (r : Rect) : List Point :=
  (rangeInt r.y0 r.y1).flatMap (fun y => (rangeInt r.x0 r.x1).map (fun x => ⟨x, y⟩))

/-- The software (non-dma2d) loader_rust (source lines 198 to 273): sets the
window to the screen-clamped rectangle, streams one pixel per position of
the loop rectangle in row-major order, and flushes.  The nested for loops
carry no state between iterations, so they are translated directly as a
row-major map of the loop body. -/
def loader_rust_sw (e : Ext) (r : Rect) (fg_color bg_color : Color) (progress : Int)
    (indeterminate : Bool) (icon : Option (List Nat × Color × Offset)) : List SwEvent :=
  let c := mkSwCtx e r fg_color bg_color progress indeterminate icon
  SwEvent.setWindow c.clamped ::
    ((rowMajor r).map (fun p => SwEvent.pixel (code_pixel e c bg_color p)) ++ [SwEvent.dirty])

/-- The icon compositor claim test as the spec words it: the icon is active,
the pixel is inside the screen-clamped icon bounds, and the pixel is inside
the inner disk (squared distance at most the inner anti-alias start
threshold). -/
def icon_claims (e : Ext) (c : SwCtx) (p : Point) : Bool :=
  c.use_icon && c.icon_area_clamped.contains p &&
    decide ((p.x - c.center.x) * (p.x - c.center.x) +
      (p.y - c.center.y) * (p.y - c.center.y) ≤ e.geom.IN_INNER_ANTI)

/-- Per-pixel color resolution exactly as the spec sentence words it: if the
icon compositor claims the pixel, resolve from the icon color table; else
if inside the clamped region, resolve via the classifier intensity and the
main gradient table; else plain background. -/
def spec_resolve (e : Ext) (c : SwCtx) (bg_color : Color) (p : Point) : Color :=
  if icon_claims e c p then icon_color_at c p
  else if c.clamped.contains p then
    c.colortable (loader_get_pixel_color_idx e c.sa c.inv c.end_vector c.n_start p.x p.y c.center)
  else bg_color

/-- The output stream exactly as claim C1 states it: one resolved pixel per
position of the screen-clamped bounding rectangle in row-major order,
followed by a single flush. -/
def claim_stream_clamped (e : Ext) (r : Rect) (fg_color bg_color : Color) (progress : Int)
    (indeterminate : Bool) (icon : Option (List Nat × Color × Offset)) : List SwEvent :=
  let c := mkSwCtx e r fg_color bg_color progress indeterminate icon
  SwEvent.setWindow c.clamped ::
    ((rowMajor (r.clamp e.screen)).map (fun p => SwEvent.pixel (spec_resolve e c bg_color p)) ++
      [SwEvent.dirty])

/-- The output stream of the amended claim C1: one resolved pixel per
position of the full (unclamped) bounding rectangle in row-major order,
followed by a single flush; the clamping governs only the window and the
per-pixel resolution, not the number of streamed pixels. -/
def claim_stream_full (e : Ext) (r : Rect) (fg_color bg_color : Color) (progress : Int)
    (indeterminate : Bool) (icon : Option (List Nat × Color × Offset)) : List SwEvent :=
  let c := mkSwCtx e r fg_color bg_color progress indeterminate icon
  SwEvent.setWindow c.clamped ::
    ((rowMajor r).map (fun p => SwEvent.pixel (spec_resolve e c bg_color p)) ++ [SwEvent.dirty])

/-- loader_uncompress (source lines 40 to 66), generic over the rasterizer
backend render since the two backends are build-time variants of one
contract.  With an icon present it parses the TOIF header (unwrap: abort on
parse failure), asserts the GrayScaleEH format (abort on mismatch), and
only when both dimensions are at most the maximum icon size decompresses
the payload past the 12-byte header (abort on failure) and renders with the
icon; an oversized icon renders without the icon. -/
def loader_uncompress {α : Type}
    (e : Ext)
    (render : Rect → Color → Color → Int → Bool → Option (List Nat × Color × Offset) → α)
    (r : Rect) (fg_color bg_color : Color) (progress : Int) (indeterminate : Bool)
    (icon : Option (List Nat × Color)) : Except Abort α :=
  match icon with
  | some (data, color) =>
    match e.toif_info data with
    | none => Except.error Abort.invalidToif
    | some info =>
      if info.format = ToifFormat.grayScaleEH then
        if info.width ≤ e.iconMaxSize ∧ info.height ≤ e.iconMaxSize then
          match e.uncompress (data.drop 12) with
          | none => Except.error Abort.decompressFailed
          | some icon_data =>
            Except.ok (render r fg_color bg_color progress indeterminate
              (some (icon_data, color, ⟨(info.width : Int), (info.height : Int)⟩)))
        else Except.ok (render r fg_color bg_color progress indeterminate none)
      else Except.error Abort.formatMismatch
  | none => Except.ok (render r fg_color bg_color progress indeterminate none)

/-- The five line-buffer slots of the dma2d backend: the two 16bpp loader
line buffers, the two 4bpp icon line buffers, and the shared empty line. -/
inductive Slot
  | b1
  | b2
  | ib1
  | ib2
  | emptyLine
deriving DecidableEq

/-- Events of the dma2d backend: the set_window call, the one-time blend
setup with the three colors, a write into the icon line buffer of a slot,
a write of one packed byte into a loader line buffer slot, a blocking
wait for transfer completion, and the issue of a blend transfer reading an
icon slot and a loader slot. -/
inductive DEvent
  | setWindow (r : Rect)
  | setupBlend (fg bg ic : Color)
  | writeIcon (s : Slot)
  | writeLoader (s : Slot) (i : Nat) (b : Nat)
  | wait
  | blend (iconSlot loaderSlot : Slot) (w : Int)
deriving DecidableEq

/-- The inner x loop of the dma2d backend (source lines 355 to 374), walking
offsets j = x_c - r.x0 from 0 (the source recomputes the offset as x each
iteration; here the loop variable is the offset itself and the column is
rx0 + j).  At an even offset the intensity only replaces pix_c_idx_prev; at
an odd offset one byte, previous intensity in the low nibble and current in
the high nibble (u8 shift, hence the mod 256), is stored at index j >> 1.
Returns the final pix_c_idx_prev and the ordered list of stores. -/
def line_loop (f : Int → Nat) (rx0 : Int) : Nat → Nat → Nat → Nat × List (Nat × Nat)
  | _, 0, prev => (prev, [])
  | j, n + 1, prev =>
    let idx := f (rx0 + (j : Int))
    if j % 2 = 0 then line_loop f rx0 (j + 1) n idx
    else
      let rest := line_loop f rx0 (j + 1) n prev
      (rest.1, (j / 2, (prev ||| (idx <<< 4)) % 256) :: rest.2)

/-- The stores of the dma2d inner loop in closed form: one store per odd
offset k among the n offsets starting at j, at buffer index k / 2, packing
the even-offset intensity in the low nibble and the odd-offset intensity in
the high nibble. -/
def oddStores (f : Int → Nat) (rx0 : Int) (j n : Nat) : List (Nat × Nat) :=
  ((List.range' j n).filter (fun k => k % 2 = 1)).map
    (fun k => (k / 2, (f (rx0 + (k : Int) - 1) ||| (f (rx0 + (k : Int)) <<< 4)) % 256))

/-- Derived per-call state of the dma2d rasterizer (source lines 285 to
314). -/
structure DmaCtx where
  r : Rect
  clamped : Rect
  center : Point
  sa : Bool
  inv : Bool
  end_vector : Point
  n_start : Point
  use_icon : Bool
  icon_area : Rect
  icon_area_clamped : Rect

/-- The per-column intensity fed to the packing loop (source lines 360 to
366): the classifier output inside the clamped window and 0 outside. -/
def dma_pix (e : Ext) (c : DmaCtx) (y_c x_c : Int) : Nat :=
  if c.clamped.contains ⟨x_c, y_c⟩ then
    loader_get_pixel_color_idx e c.sa c.inv c.end_vector c.n_start x_c y_c c.center
  else 0

/-- The icon line buffer slot of a row: ib1 on even rows and ib2 on odd
rows. -/
def rowIconSlot (y_c : Int) : Slot := if Int.tmod y_c 2 = 0 then Slot.ib1 else Slot.ib2

/-- The loader line buffer slot of a row: b1 on even rows and b2 on odd rows. -/
def rowLoaderSlot (y_c : Int) : Slot := if Int.tmod y_c 2 = 0 then Slot.b1 else Slot.b2

/-- One iteration of the dma2d scanline loop (source lines 324 to 378) as an
event list: even rows use slots ib1/b1 and odd rows ib2/b2 (the Rust
remainder test y_c % 2 == 0 distinguishes even from odd also for negative
rows); when the row intersects the clamped icon bounds the icon row is
copied into the icon slot, which is then fed to the blend in place of the
empty line; the packed loader bytes are stored; then one blocking wait and
one blend issue.  The byte contents of the icon copy do not affect the
event structure and are not carried on the writeIcon event. -/
def dma_row (e : Ext) (c : DmaCtx) (y_c : Int) : List DEvent :=
  let iconRow :=
    c.use_icon && decide (y_c ≥ c.icon_area_clamped.y0) && decide (y_c < c.icon_area_clamped.y1)
  let iconPart : List DEvent := if iconRow then [DEvent.writeIcon (rowIconSlot y_c)] else []
  let iconUsed : Slot := if iconRow then rowIconSlot y_c else Slot.emptyLine
  let stores := (line_loop (fun x_c => dma_pix e c y_c x_c) c.r.x0 0 (c.r.x1 - c.r.x0).toNat 0).2
  iconPart ++ stores.map (fun st => DEvent.writeLoader (rowLoaderSlot y_c) st.1 st.2) ++
    [DEvent.wait, DEvent.blend iconUsed (rowLoaderSlot y_c) c.r.width]

/-- The scanline loop: n rows starting at row y, each contributing its row
events in order. -/
def dma_rows (row : Int → List DEvent) (y : Int) : Nat → List DEvent
  | 0 => []
  | n + 1 => row y ++ dma_rows row (y + 1) n

/-- The dma2d loader_rust (source lines 276 to 381) as an event trace: set
the window, program the blend colors once (the icon color is
Color::from_u16(0) unless an icon within the size limit is supplied), run
the scanline loop, and issue one trailing blocking wait. -/
def loader_rust_dma2d (e : Ext) (r : Rect) (fg_color bg_color : Color) (progress : Int)
    (indeterminate : Bool) (icon : Option (List Nat × Color × Offset)) : List DEvent :=
  let clamped := r.clamp e.screen
  let center := r.center
  let iconPart : Bool × Rect × Rect × Color :=
    match icon with
    | some (_, color, size) =>
      if decide (size.x ≤ (e.iconMaxSize : Int)) && decide (size.y ≤ (e.iconMaxSize : Int)) then
        (true, Rect.from_center_and_size center size,
         (Rect.from_center_and_size center size).clamp e.screen, color)
      else (false, Rect.zero, Rect.zero, 0)
    | none => (false, Rect.zero, Rect.zero, 0)
  let vectors := get_loader_vectors e.get_vector indeterminate progress
  let c : DmaCtx :=
    { r := r
      clamped := clamped
      center := center
      sa := show_all indeterminate progress
      inv := inverted indeterminate progress
      end_vector := vectors.2
      n_start := ⟨-vectors.1.y, vectors.1.x⟩
      use_icon := iconPart.1
      icon_area := iconPart.2.1
      icon_area_clamped := iconPart.2.2.1 }
  DEvent.setWindow clamped :: DEvent.setupBlend fg_color bg_color iconPart.2.2.2 ::
    (dma_rows (dma_row e c) r.y0 (r.y1 - r.y0).toNat ++ [DEvent.wait])

/-- Recognizer for the blocking wait event. -/
def isWait : DEvent → Bool
  | DEvent.wait => true
  | _ => false

/-- Recognizer for the blend issue event. -/
def isBlend : DEvent → Bool
  | DEvent.blend _ _ _ => true
  | _ => false

/-- Number of blocking dma2d_wait_for_transfer calls in a trace. -/
def countWaits (t : List DEvent) : Nat := t.countP isWait

/-- Number of dma2d_start_blend calls in a trace. -/
def countBlends (t : List DEvent) : Nat := t.countP isBlend

/-- Whether one event is allowed given the set of hot slots (slots read by a
transfer issued since the last blocking wait): a buffer write must not
target a hot slot; every other event is always allowed. -/
def okEvent (hot : List Slot) : DEvent → Bool
  | DEvent.writeIcon s => !decide (s ∈ hot)
  | DEvent.writeLoader s _ _ => !decide (s ∈ hot)
  | _ => true

/-- State transition of the hot-slot set: a wait retires the in-flight
transfer (clearing the set, there is a single transfer in flight), a blend
marks both buffers it reads as hot, and other events leave it unchanged. -/
def stepHot (hot : List Slot) : DEvent → List Slot
  | DEvent.wait => []
  | DEvent.blend a b _ => a :: b :: hot
  | _ => hot

/-- Checks a trace for wait-before-reuse safety: no buffer slot is written
while a transfer issued from that same slot has not yet been waited to
completion. -/
def checkFrom (hot : List Slot) : List DEvent → Bool
  | [] => true
  | ev :: t => okEvent hot ev && checkFrom (stepHot hot ev) t

/-- The hot-slot set after running a whole trace. -/
def runHot (hot : List Slot) : List DEvent → List Slot
  | [] => hot
  | ev :: t => runHot (stepHot hot ev) t

/-- A concrete loader geometry used by the witness theorems: the six
thresholds are strictly increasing and the anti-alias bands are wide, as
the squared-radius formulas of the source produce for any realistic radius
pair. -/
def geomT : LoaderGeometry := ⟨1722, 1806, 1892, 1980, 3422, 3540⟩

/-- A concrete environment used by the witness and counterexample theorems:
a 240 by 240 screen, maximum icon size 64, the geometry above, and simple
computable instantiations of the abstract collaborators. -/
def extW : Ext :=
  { screen := ⟨0, 0, 240, 240⟩
    iconMaxSize := 64
    geom := geomT
    get_vector := fun a => ⟨a, a + 1⟩
    is_clockwise_or_equal := fun a b => decide (a.x * b.y - a.y * b.x ≤ 0)
    is_clockwise_or_equal_inc := fun a b => decide (a.x * b.y - a.y * b.x < 0)
    get_color_table := fun f b i => f * 100 + b * 10 + i
    toif_info := fun _ => none
    uncompress := fun data => some (data ++ data) }

/-- C3: for every determinate call, progress at least 1000 forces the
show_all flag and collapses both vectors to the origin; progress strictly
between 500 and 1000 swaps the vectors (start from the end angle, end from
the start angle); progress at most 500, in particular exactly 500, keeps
the natural order. -/
theorem C3_determinate_vectors (gv : Int → Point) (p : Int) :
    (1000 ≤ p →
      show_all false p = true ∧ get_loader_vectors gv false p = (Point.zero, Point.zero)) ∧
    (500 < p → p < 1000 →
      get_loader_vectors gv false p =
        (gv (loader_angles false p).2, gv (loader_angles false p).1)) ∧
    (p ≤ 500 →
      get_loader_vectors gv false p =
        (gv (loader_angles false p).1, gv (loader_angles false p).2)) := by
  refine ⟨fun h => ⟨?_, ?_⟩, fun h1 h2 => ?_, fun h => ?_⟩
  · simp only [show_all, Bool.not_false, Bool.true_and, decide_eq_true_eq]
    omega
  · unfold get_loader_vectors
    rw [if_neg (by simp), if_pos (by omega)]
  · unfold get_loader_vectors
    rw [if_neg (by simp), if_neg (by omega), if_pos h1]
  · unfold get_loader_vectors
    rw [if_neg (by simp), if_neg (by omega), if_neg (by omega)]

/-- Witness for C3 at progress 1000, 501 and 500. -/
theorem C3_witness :
    (show_all false 1000 = true ∧
      get_loader_vectors (fun a => Point.mk a 0) false 1000 = (Point.zero, Point.zero)) ∧
    get_loader_vectors (fun a => Point.mk a 0) false 501 = (Point.mk 180 0, Point.mk 0 0) ∧
    get_loader_vectors (fun a => Point.mk a 0) false 500 = (Point.mk 0 0, Point.mk 180 0) := by
  refine ⟨(C3_determinate_vectors (fun a => Point.mk a 0) 1000).1 (by decide), ?_, ?_⟩
  · have h := (C3_determinate_vectors (fun a => Point.mk a 0) 501).2.1 (by decide) (by decide)
    rw [show loader_angles false 501 = (0, 180) from by decide] at h
    exact h
  · have h := (C3_determinate_vectors (fun a => Point.mk a 0) 500).2.2 (by decide)
    rw [show loader_angles false 500 = (0, 180) from by decide] at h
    exact h

/-- C7: every pixel whose squared distance from the center is at most the
inner anti-alias start threshold classifies to intensity 0, for all flag
and vector inputs. -/
theorem C7_inner_disk_zero (e : Ext) (sa inv : Bool) (ev ns : Point) (x_c y_c : Int)
    (center : Point)
    (h : -(y_c - center.y) * -(y_c - center.y) + (x_c - center.x) * (x_c - center.x) ≤
      e.geom.IN_INNER_ANTI) :
    loader_get_pixel_color_idx e sa inv ev ns x_c y_c center = 0 := by
  simp only [loader_get_pixel_color_idx, active_intensity, inactive_intensity]
  rw [if_pos h, if_pos h, ite_self]

/-- Witness for C7 at a concrete pixel inside the inner disk. -/
theorem C7_witness : loader_get_pixel_color_idx extW true false ⟨3, 4⟩ ⟨5, 6⟩ 10 10 ⟨0, 0⟩ = 0 :=
  C7_inner_disk_zero extW true false ⟨3, 4⟩ ⟨5, 6⟩ 10 10 ⟨0, 0⟩ (by decide)

/-- C6: an icon whose parsed width or height is one unit above the fixed
maximum renders exactly as the same call with no icon at all, for either
backend. -/
theorem C6_oversized_icon_dropped {α : Type} (e : Ext)
    (render : Rect → Color → Color → Int → Bool → Option (List Nat × Color × Offset) → α)
    (r : Rect) (fg bg : Color) (p : Int) (ind : Bool) (data : List Nat) (color : Color)
    (info : ToifInfo) (h1 : e.toif_info data = some info)
    (h2 : info.format = ToifFormat.grayScaleEH)
    (h3 : info.width = e.iconMaxSize + 1 ∨ info.height = e.iconMaxSize + 1) :
    loader_uncompress e render r fg bg p ind (some (data, color)) =
      loader_uncompress e render r fg bg p ind none := by
  simp only [loader_uncompress, h1]
  rw [if_pos h2, if_neg (by omega)]

/-- Witness for C6 with a 65 by 3 icon against the size limit 64. -/
theorem C6_witness :
    loader_uncompress { extW with toif_info := fun _ => some ⟨ToifFormat.grayScaleEH, 65, 3⟩ }
        (loader_rust_sw extW) ⟨10, 10, 30, 30⟩ 1 2 700 false (some ([1, 2, 3], 5)) =
      loader_uncompress { extW with toif_info := fun _ => some ⟨ToifFormat.grayScaleEH, 65, 3⟩ }
        (loader_rust_sw extW) ⟨10, 10, 30, 30⟩ 1 2 700 false none :=
  C6_oversized_icon_dropped _ (loader_rust_sw extW) ⟨10, 10, 30, 30⟩ 1 2 700 false [1, 2, 3] 5
    ⟨ToifFormat.grayScaleEH, 65, 3⟩ rfl rfl (Or.inl rfl)

/-- C8: loader_uncompress aborts exactly when an icon is present and its
header is unparseable, or its format is not GrayScaleEH, or it is within
the size limit and its decompression fails; every other input, including
any progress value and any rectangle, renders without failure. -/
theorem C8_abort_iff {α : Type} (e : Ext)
    (render : Rect → Color → Color → Int → Bool → Option (List Nat × Color × Offset) → α)
    (r : Rect) (fg bg : Color) (p : Int) (ind : Bool) (icon : Option (List Nat × Color)) :
    (∃ ab, loader_uncompress e render r fg bg p ind icon = Except.error ab) ↔
      (∃ data color, icon = some (data, color) ∧
        (e.toif_info data = none ∨
          ∃ info, e.toif_info data = some info ∧
            (info.format ≠ ToifFormat.grayScaleEH ∨
              (info.width ≤ e.iconMaxSize ∧ info.height ≤ e.iconMaxSize ∧
                e.uncompress (data.drop 12) = none)))) := by
  rcases icon with _ | ⟨data, color⟩
  · simp [loader_uncompress]
  · rcases h : e.toif_info data with _ | info
    · simp [loader_uncompress, h]
    · by_cases hf : info.format = ToifFormat.grayScaleEH
      · by_cases hs : info.width ≤ e.iconMaxSize ∧ info.height ≤ e.iconMaxSize
        · rcases hu : e.uncompress (data.drop 12) with _ | out
          · simp only [loader_uncompress, h]
            rw [if_pos hf, if_pos hs]
            simp [h, hf, hs.1, hs.2, hu]
          · simp only [loader_uncompress, h]
            rw [if_pos hf, if_pos hs]
            simp [h, hf, hs.1, hs.2, hu]
        · simp only [loader_uncompress, h]
          rw [if_pos hf, if_neg hs]
          constructor
          · rintro ⟨ab, hab⟩
            exact absurd hab (by simp)
          · rintro ⟨data0, color0, heq, hca⟩
            obtain ⟨rfl, rfl⟩ : data = data0 ∧ color = color0 := by
              simpa using heq
            rcases hca with hnone | ⟨info0, hinfo0, hbad⟩
            · rw [h] at hnone
              exact absurd hnone (by simp)
            · rw [h] at hinfo0
              obtain rfl : info = info0 := by simpa using hinfo0
              rcases hbad with hbad | hbad
              · exact absurd hf hbad
              · exact absurd ⟨hbad.1, hbad.2.1⟩ hs
      · simp only [loader_uncompress, h]
        rw [if_neg hf]
        simp [h, hf]

/-- C9: with an icon present the TOIF header is parsed and its format
asserted before the size limit is consulted, so a corrupt or wrong-format
header aborts even when the icon is oversized; and an oversized icon with a
well-formed header renders without the icon for every possible decompressor
outcome, so decompression is never attempted for it. -/
theorem C9_header_checked_before_size {α : Type} (e : Ext)
    (render : Rect → Color → Color → Int → Bool → Option (List Nat × Color × Offset) → α)
    (r : Rect) (fg bg : Color) (p : Int) (ind : Bool) :
    (∀ data color, e.toif_info data = none →
      loader_uncompress e render r fg bg p ind (some (data, color)) =
        Except.error Abort.invalidToif) ∧
    (∀ data color info, e.toif_info data = some info →
      info.format ≠ ToifFormat.grayScaleEH →
      loader_uncompress e render r fg bg p ind (some (data, color)) =
        Except.error Abort.formatMismatch) ∧
    (∀ data color info u, e.toif_info data = some info →
      info.format = ToifFormat.grayScaleEH →
      ¬(info.width ≤ e.iconMaxSize ∧ info.height ≤ e.iconMaxSize) →
      loader_uncompress { e with uncompress := u } render r fg bg p ind (some (data, color)) =
        Except.ok (render r fg bg p ind none)) := by
  refine ⟨fun data color h => ?_, fun data color info h hf => ?_, fun data color info u h hf hs => ?_⟩
  · simp [loader_uncompress, h]
  · simp only [loader_uncompress, h]
    rw [if_neg hf]
  · simp only [loader_uncompress, h]
    rw [if_pos hf, if_neg hs]

/-- Witness for C9: a concrete unparseable header aborts, a concrete
wrong-format oversized header aborts, and a concrete oversized well-formed
icon renders without the icon although the decompressor would fail. -/
theorem C9_witness :
    loader_uncompress extW (loader_rust_sw extW) ⟨10, 10, 30, 30⟩ 1 2 700 false
        (some ([1, 2, 3], 5)) = Except.error Abort.invalidToif ∧
    loader_uncompress { extW with toif_info := fun _ => some ⟨ToifFormat.fullColorLE, 200, 3⟩ }
        (loader_rust_sw extW) ⟨10, 10, 30, 30⟩ 1 2 700 false (some ([1, 2, 3], 5)) =
      Except.error Abort.formatMismatch ∧
    loader_uncompress
        { { extW with toif_info := fun _ => some ⟨ToifFormat.grayScaleEH, 65, 3⟩ } with
            uncompress := fun _ => none }
        (loader_rust_sw extW) ⟨10, 10, 30, 30⟩ 1 2 700 false (some ([1, 2, 3], 5)) =
      Except.ok (loader_rust_sw extW ⟨10, 10, 30, 30⟩ 1 2 700 false none) :=
  ⟨(C9_header_checked_before_size extW (loader_rust_sw extW) ⟨10, 10, 30, 30⟩ 1 2 700
      false).1 [1, 2, 3] 5 rfl,
   (C9_header_checked_before_size
      { extW with toif_info := fun _ => some ⟨ToifFormat.fullColorLE, 200, 3⟩ }
      (loader_rust_sw extW) ⟨10, 10, 30, 30⟩ 1 2 700 false).2.1 [1, 2, 3] 5
      ⟨ToifFormat.fullColorLE, 200, 3⟩ rfl (by decide),
   (C9_header_checked_before_size
      { extW with toif_info := fun _ => some ⟨ToifFormat.grayScaleEH, 65, 3⟩ }
      (loader_rust_sw extW) ⟨10, 10, 30, 30⟩ 1 2 700 false).2.2 [1, 2, 3] 5
      ⟨ToifFormat.grayScaleEH, 65, 3⟩ (fun _ => none) rfl rfl (by decide)⟩

/-- The loop body of the software rasterizer resolves each pixel exactly as
the spec sentence describes: icon sample when the compositor claims the
pixel, else gradient entry of the classifier inside the clamped window,
else plain background. -/
theorem code_pixel_eq_spec_resolve (e : Ext) (c : SwCtx) (bg_color : Color) (p : Point) :
    code_pixel e c bg_color p = spec_resolve e c bg_color p := by
  unfold code_pixel spec_resolve icon_claims
  cases h1 : c.use_icon && c.icon_area_clamped.contains p with
  | false => simp [h1]
  | true =>
    by_cases h2 : (p.x - c.center.x) * (p.x - c.center.x) +
        (p.y - c.center.y) * (p.y - c.center.y) ≤ e.geom.IN_INNER_ANTI
    · simp [h1, h2]
    · simp [h1, h2]

/-- C1 (amended): the software rasterizer emits the set_window call on the
screen-clamped rectangle, then exactly one pixel per position of the full
(unclamped) bounding rectangle in row-major order, each resolved by the
icon/classifier/background rule, then exactly one flush. -/
theorem C1_sw_stream (e : Ext) (r : Rect) (fg_color bg_color : Color) (progress : Int)
    (indeterminate : Bool) (icon : Option (List Nat × Color × Offset)) :
    loader_rust_sw e r fg_color bg_color progress indeterminate icon =
      claim_stream_full e r fg_color bg_color progress indeterminate icon := by
  unfold loader_rust_sw claim_stream_full
  simp only [code_pixel_eq_spec_resolve]

/-- Counterexample to C1 as stated: for a bounding rectangle that extends
off-screen the loop still runs over the full rectangle, so the number of
streamed pixels exceeds the number of positions of the screen-clamped
rectangle and the stream differs from the one claimed. -/
theorem C1_counterexample :
    loader_rust_sw extW ⟨-2, 0, 2, 2⟩ 1 2 300 false none ≠
      claim_stream_clamped extW ⟨-2, 0, 2, 2⟩ 1 2 300 false none := by decide

/-- C5 (amended): for every indeterminate call with progress in [0, 1000]
the start and end angles passed to the angle-to-vector lookup equal the
truncating-division formulas on progress minus and plus 100; the end angle
always lies in [0, 360), but the start angle only lies in (-360, 360) in
general: it is nonnegative exactly from progress 98 upwards and negative
below (Rust truncating remainder keeps the sign of the dividend). -/
theorem C5_indeterminate_angles (gv : Int → Point) (p : Int) (h0 : 0 ≤ p) (h1 : p ≤ 1000) :
    get_loader_vectors gv true p = (gv (loader_angles true p).1, gv (loader_angles true p).2) ∧
    (loader_angles true p).1 = Int.tmod (Int.tdiv (360 * (p - 100)) 1000) 360 ∧
    (loader_angles true p).2 = Int.tmod (Int.tdiv (360 * (p + 100)) 1000) 360 ∧
    -360 < (loader_angles true p).1 ∧ (loader_angles true p).1 < 360 ∧
    0 ≤ (loader_angles true p).2 ∧ (loader_angles true p).2 < 360 ∧
    (98 ≤ p → 0 ≤ (loader_angles true p).1) ∧
    (p < 98 → (loader_angles true p).1 < 0) := by
  have hvec : get_loader_vectors gv true p =
      (gv (loader_angles true p).1, gv (loader_angles true p).2) := by
    unfold get_loader_vectors
    rw [if_pos rfl]
  have ha1 : (loader_angles true p).1 = Int.tmod (Int.tdiv (360 * (p - 100)) 1000) 360 := by
    simp [loader_angles]
  have ha2 : (loader_angles true p).2 = Int.tmod (Int.tdiv (360 * (p + 100)) 1000) 360 := by
    simp [loader_angles]
  have he : 0 ≤ (loader_angles true p).2 ∧ (loader_angles true p).2 < 360 := by
    rw [ha2]
    have hnum : (0 : Int) ≤ 360 * (p + 100) := by omega
    rw [Int.tdiv_eq_ediv hnum (by norm_num)]
    have hq : 0 ≤ 360 * (p + 100) / 1000 := Int.ediv_nonneg hnum (by norm_num)
    rw [Int.tmod_eq_emod hq (by norm_num)]
    exact ⟨Int.emod_nonneg _ (by norm_num), Int.emod_lt_of_pos _ (by norm_num)⟩
  have hs : -360 < (loader_angles true p).1 ∧ (loader_angles true p).1 < 360 ∧
      (98 ≤ p → 0 ≤ (loader_angles true p).1) ∧
      (p < 98 → (loader_angles true p).1 < 0) := by
    rw [ha1]
    rcases le_or_lt 100 p with hp | hp
    · have hnum : (0 : Int) ≤ 360 * (p - 100) := by omega
      rw [Int.tdiv_eq_ediv hnum (by norm_num)]
      have hq : 0 ≤ 360 * (p - 100) / 1000 := Int.ediv_nonneg hnum (by norm_num)
      rw [Int.tmod_eq_emod hq (by norm_num)]
      have e1 := Int.emod_nonneg (360 * (p - 100) / 1000) (show (360 : Int) ≠ 0 by norm_num)
      have e2 := Int.emod_lt_of_pos (360 * (p - 100) / 1000) (show (0 : Int) < 360 by norm_num)
      exact ⟨by omega, by omega, fun _ => e1, fun hlt => absurd hlt (by omega)⟩
    · have hrw : 360 * (p - 100) = -(360 * (100 - p)) := by ring
      have hnum : (0 : Int) ≤ 360 * (100 - p) := by omega
      rw [hrw, Int.neg_tdiv, Int.tdiv_eq_ediv hnum (by norm_num)]
      set q := 360 * (100 - p) / 1000 with hqdef
      have hq0 : 0 ≤ q := Int.ediv_nonneg hnum (by norm_num)
      have hq36 : q ≤ 36 := by
        have hb : 360 * (100 - p) ≤ 36000 := by omega
        calc q ≤ 36000 / 1000 := Int.ediv_le_ediv (by norm_num) hb
          _ = 36 := by norm_num
      have htd : Int.tdiv (-q) 360 = 0 := by
        rw [Int.neg_tdiv, Int.tdiv_eq_ediv hq0 (by norm_num),
          Int.ediv_eq_zero_of_lt hq0 (by omega)]
        norm_num
      have htm : Int.tmod (-q) 360 = -q := by
        rw [Int.tmod_def, htd]
        ring
      rw [htm]
      refine ⟨by omega, by omega, fun hp98 => ?_, fun hlt => ?_⟩
      · have hq0eq : q = 0 := by
          rw [hqdef, Int.ediv_eq_zero_of_lt hnum (by omega)]
        omega
      · have hb2 : (1080 : Int) ≤ 360 * (100 - p) := by omega
        have hlow : (1080 : Int) / 1000 ≤ q := by
          rw [hqdef]
          exact Int.ediv_le_ediv (by norm_num) hb2
        have h1080 : (1080 : Int) / 1000 = 1 := by decide
        omega
  exact ⟨hvec, ha1, ha2, hs.1, hs.2.1, he.1, he.2, hs.2.2.1, hs.2.2.2⟩

/-- Counterexample to C5 as stated: at progress 0 the start angle computed
and passed to the lookup is -36, which is not in [0, 360). -/
theorem C5_counterexample :
    (loader_angles true 0).1 = -36 ∧
    get_loader_vectors (fun a => Point.mk a 0) true 0 = (Point.mk (-36) 0, Point.mk 36 0) ∧
    ¬(0 ≤ (loader_angles true 0).1) := by decide

/-- Witness for C5 (amended) at progress 0 and 500: bounds on both angles,
a nonnegative start angle at 500, and a negative start angle at 0. -/
theorem C5_witness :
    (-360 < (loader_angles true 0).1 ∧ (loader_angles true 0).1 < 360) ∧
    (0 ≤ (loader_angles true 500).2 ∧ (loader_angles true 500).2 < 360) ∧
    (0 ≤ (loader_angles true 500).1) ∧
    ((loader_angles true 0).1 < 0) :=
  ⟨⟨(C5_indeterminate_angles (fun a => Point.mk a 0) 0 (by decide) (by decide)).2.2.2.1,
    (C5_indeterminate_angles (fun a => Point.mk a 0) 0 (by decide) (by decide)).2.2.2.2.1⟩,
   ⟨(C5_indeterminate_angles (fun a => Point.mk a 0) 500 (by decide) (by decide)).2.2.2.2.2.1,
    (C5_indeterminate_angles (fun a => Point.mk a 0) 500 (by decide) (by decide)).2.2.2.2.2.2.1⟩,
   (C5_indeterminate_angles (fun a => Point.mk a 0) 500 (by decide) (by decide)).2.2.2.2.2.2.2.1
     (by decide),
   (C5_indeterminate_angles (fun a => Point.mk a 0) 0 (by decide) (by decide)).2.2.2.2.2.2.2.2
     (by decide)⟩

/-- Checking a concatenated trace checks the first part and then the second
part from the hot-slot state the first part leaves behind. -/
theorem checkFrom_append (a b : List DEvent) (hot : List Slot) :
    checkFrom hot (a ++ b) = (checkFrom hot a && checkFrom (runHot hot a) b) := by
  induction a generalizing hot with
  | nil => simp [checkFrom, runHot]
  | cons ev t ih => simp [checkFrom, runHot, ih, Bool.and_assoc]

/-- Running a concatenated trace threads the hot-slot state through. -/
theorem runHot_append (a b : List DEvent) (hot : List Slot) :
    runHot hot (a ++ b) = runHot (runHot hot a) b := by
  induction a generalizing hot with
  | nil => simp [runHot]
  | cons ev t ih => simp [runHot, ih]

/-- A block of loader-buffer writes to one slot passes the safety check and
leaves the hot-slot state unchanged when that slot is not hot. -/
theorem checkFrom_writeLoader (s : Slot) (l : List (Nat × Nat)) (hot : List Slot)
    (h : s ∉ hot) :
    checkFrom hot (l.map (fun st => DEvent.writeLoader s st.1 st.2)) = true ∧
    runHot hot (l.map (fun st => DEvent.writeLoader s st.1 st.2)) = hot := by
  induction l with
  | nil => simp [checkFrom, runHot]
  | cons a t ih => simp [checkFrom, runHot, okEvent, stepHot, h, ih]

/-- The Rust remainder by two is zero on exactly one of two consecutive
rows. -/
theorem tmod_two_cases (y : Int) :
    (Int.tmod y 2 = 0 ∧ ¬Int.tmod (y + 1) 2 = 0) ∨
    (¬Int.tmod y 2 = 0 ∧ Int.tmod (y + 1) 2 = 0) := by
  have h1 : (Int.tmod y 2 = 0) ↔ (2 ∣ y) :=
    ⟨Int.dvd_of_tmod_eq_zero, Int.tmod_eq_zero_of_dvd⟩
  have h2 : (Int.tmod (y + 1) 2 = 0) ↔ (2 ∣ (y + 1)) :=
    ⟨Int.dvd_of_tmod_eq_zero, Int.tmod_eq_zero_of_dvd⟩
  by_cases hd : (2 : Int) ∣ y
  · exact Or.inl ⟨h1.mpr hd, fun hc => by have := h2.mp hc; omega⟩
  · exact Or.inr ⟨fun hc => hd (h1.mp hc), h2.mpr (by omega)⟩

/-- Consecutive rows use different icon slots and different loader slots. -/
theorem rowSlots_next (y : Int) :
    rowIconSlot (y + 1) ≠ rowIconSlot y ∧ rowLoaderSlot (y + 1) ≠ rowLoaderSlot y := by
  unfold rowIconSlot rowLoaderSlot
  rcases tmod_two_cases y with ⟨ha, hb⟩ | ⟨ha, hb⟩ <;> simp [ha, hb]

/-- Icon slots, loader slots and the empty line are pairwise of different
kinds. -/
theorem rowSlot_kinds (y z : Int) :
    rowIconSlot y ≠ rowLoaderSlot z ∧ rowIconSlot y ≠ Slot.emptyLine ∧
    rowLoaderSlot y ≠ Slot.emptyLine := by
  unfold rowIconSlot rowLoaderSlot
  by_cases hy : Int.tmod y 2 = 0 <;> by_cases hz : Int.tmod z 2 = 0 <;> simp [hy, hz]

/-- One row of the dma2d loop passes the safety check when its two slots are
not hot, and afterwards exactly its blended slots are hot: the row loader
slot and either the row icon slot or the empty line. -/
theorem dma_row_props (e : Ext) (c : DmaCtx) (y : Int) (hot : List Slot)
    (h1 : rowIconSlot y ∉ hot) (h2 : rowLoaderSlot y ∉ hot) :
    checkFrom hot (dma_row e c y) = true ∧
    ∃ a, runHot hot (dma_row e c y) = [a, rowLoaderSlot y] ∧
      (a = rowIconSlot y ∨ a = Slot.emptyLine) := by
  unfold dma_row
  obtain ⟨hml, hmr⟩ := checkFrom_writeLoader (rowLoaderSlot y)
    (line_loop (fun x_c => dma_pix e c y x_c) c.r.x0 0 (c.r.x1 - c.r.x0).toNat 0).2 hot h2
  by_cases hir : (c.use_icon && decide (y ≥ c.icon_area_clamped.y0) &&
      decide (y < c.icon_area_clamped.y1)) = true
  · simp only [hir, if_pos, if_true]
    refine ⟨?_, rowIconSlot y, ?_, Or.inl rfl⟩
    · simp [checkFrom_append, checkFrom, runHot, okEvent, stepHot, h1, hml, hmr]
    · simp [runHot_append, runHot, stepHot, hmr]
  · simp only [hir, if_neg, if_false, Bool.false_eq_true]
    refine ⟨?_, Slot.emptyLine, ?_, Or.inr rfl⟩
    · simp [checkFrom_append, checkFrom, runHot, okEvent, stepHot, hml, hmr]
    · simp [runHot_append, runHot, stepHot, hmr]

/-- The scanline loop followed by the trailing wait passes the safety check
from any hot-slot state that does not contain the first row slots. -/
theorem dma_rows_safe (e : Ext) (c : DmaCtx) :
    ∀ (n : Nat) (y : Int) (hot : List Slot),
      rowIconSlot y ∉ hot → rowLoaderSlot y ∉ hot →
      checkFrom hot (dma_rows (dma_row e c) y n ++ [DEvent.wait]) = true := by
  intro n
  induction n with
  | zero => intro y hot _ _; simp [dma_rows, checkFrom, okEvent]
  | succ n ih =>
    intro y hot h1 h2
    rw [show dma_rows (dma_row e c) y (n + 1) = dma_row e c y ++ dma_rows (dma_row e c) (y + 1) n
        from rfl]
    rw [List.append_assoc, checkFrom_append]
    obtain ⟨hc, a, hrun, ha⟩ := dma_row_props e c y hot h1 h2
    rw [hc, hrun]
    simp only [Bool.true_and]
    have hne := rowSlots_next y
    have hk1 := rowSlot_kinds (y + 1) y
    have hk2 := rowSlot_kinds y (y + 1)
    apply ih
    · rcases ha with rfl | rfl
      · simp [hne.1, hk1.1]
      · simp [hk1.1, hk1.2.1]
    · rcases ha with rfl | rfl
      · simp [hne.2, Ne.symm hk2.1]
      · simp [hne.2, hk1.2.2]

/-- A block of loader-buffer writes contains no event counted by a predicate
that rejects loader-buffer writes. -/
theorem countP_writeLoader_map (p : DEvent → Bool) (s : Slot) (l : List (Nat × Nat))
    (hp : ∀ i b, p (DEvent.writeLoader s i b) = false) :
    (l.map (fun st => DEvent.writeLoader s st.1 st.2)).countP p = 0 := by
  induction l with
  | nil => simp
  | cons a t ih => simp [List.countP_cons, ih, hp]

/-- Each row of the dma2d loop issues exactly one blocking wait and exactly
one blend transfer. -/
theorem dma_row_counts (e : Ext) (c : DmaCtx) (y : Int) :
    countWaits (dma_row e c y) = 1 ∧ countBlends (dma_row e c y) = 1 := by
  unfold dma_row countWaits countBlends
  have hw := countP_writeLoader_map isWait (rowLoaderSlot y)
    (line_loop (fun x_c => dma_pix e c y x_c) c.r.x0 0 (c.r.x1 - c.r.x0).toNat 0).2
    (fun i b => rfl)
  have hb := countP_writeLoader_map isBlend (rowLoaderSlot y)
    (line_loop (fun x_c => dma_pix e c y x_c) c.r.x0 0 (c.r.x1 - c.r.x0).toNat 0).2
    (fun i b => rfl)
  by_cases hir : (c.use_icon && decide (y ≥ c.icon_area_clamped.y0) &&
      decide (y < c.icon_area_clamped.y1)) = true
  · simp [hir, List.countP_append, List.countP_cons, hw, hb, isWait, isBlend]
  · simp [hir, List.countP_append, List.countP_cons, hw, hb, isWait, isBlend]

/-- The scanline loop of n rows issues exactly n blocking waits and n blend
transfers. -/
theorem dma_rows_counts (e : Ext) (c : DmaCtx) :
    ∀ (n : Nat) (y : Int),
      countWaits (dma_rows (dma_row e c) y n) = n ∧
      countBlends (dma_rows (dma_row e c) y n) = n := by
  intro n
  induction n with
  | zero => intro y; simp [dma_rows, countWaits, countBlends]
  | succ n ih =>
    intro y
    rw [show dma_rows (dma_row e c) y (n + 1) = dma_row e c y ++ dma_rows (dma_row e c) (y + 1) n
        from rfl]
    have hr := dma_row_counts e c y
    have hi := ih (y + 1)
    unfold countWaits countBlends at *
    simp [List.countP_append, hr.1, hr.2, hi.1, hi.2]
    omega

/-- C2: the hardware-accelerated loader_rust over N scanlines
(N = r.y1 - r.y0) issues exactly N + 1 blocking waits (one per issued
blend transfer plus one trailing wait before returning, with exactly N
blend transfers), and no line-buffer slot is written while a transfer
issued from that same slot has not yet been waited to completion. -/
theorem dma_trace_props (e : Ext) (c : DmaCtx) (w : Rect) (f g ic : Color) (y : Int) (n : Nat) :
    countWaits (DEvent.setWindow w :: DEvent.setupBlend f g ic ::
      (dma_rows (dma_row e c) y n ++ [DEvent.wait])) = n + 1 ∧
    countBlends (DEvent.setWindow w :: DEvent.setupBlend f g ic ::
      (dma_rows (dma_row e c) y n ++ [DEvent.wait])) = n ∧
    checkFrom [] (DEvent.setWindow w :: DEvent.setupBlend f g ic ::
      (dma_rows (dma_row e c) y n ++ [DEvent.wait])) = true := by
  have hc := dma_rows_counts e c n y
  refine ⟨?_, ?_, ?_⟩
  · unfold countWaits at *
    simp [List.countP_cons, List.countP_append, hc.1, isWait]
  · unfold countBlends at *
    simp [List.countP_cons, List.countP_append, hc.2, isBlend]
  · have hs := dma_rows_safe e c n y [] (by simp) (by simp)
    simp only [checkFrom, okEvent, stepHot, Bool.true_and]
    exact hs

/-- The dma2d trace always has the shape: set window, program blend colors,
scanline rows, trailing wait. -/
theorem loader_rust_dma2d_shape (e : Ext) (r : Rect) (fg bg : Color) (progress : Int)
    (ind : Bool) (icon : Option (List Nat × Color × Offset)) :
    ∃ c ic, loader_rust_dma2d e r fg bg progress ind icon =
      DEvent.setWindow (r.clamp e.screen) :: DEvent.setupBlend fg bg ic ::
        (dma_rows (dma_row e c) r.y0 (r.y1 - r.y0).toNat ++ [DEvent.wait]) :=
  ⟨_, _, rfl⟩

/-- C2: the hardware-accelerated loader_rust over N scanlines
(N = r.y1 - r.y0) issues exactly N + 1 blocking waits (one per issued
blend transfer, of which there are exactly N, plus one trailing wait before
returning), and no line-buffer slot is written while a transfer issued from
that same slot has not yet been waited to completion. -/
theorem C2_dma2d_waits_and_slot_safety (e : Ext) (r : Rect) (fg bg : Color) (progress : Int)
    (ind : Bool) (icon : Option (List Nat × Color × Offset)) (h : r.y0 ≤ r.y1) :
    (countWaits (loader_rust_dma2d e r fg bg progress ind icon) : Int) = (r.y1 - r.y0) + 1 ∧
    (countBlends (loader_rust_dma2d e r fg bg progress ind icon) : Int) = r.y1 - r.y0 ∧
    checkFrom [] (loader_rust_dma2d e r fg bg progress ind icon) = true := by
  obtain ⟨c, ic, hshape⟩ := loader_rust_dma2d_shape e r fg bg progress ind icon
  rw [hshape]
  obtain ⟨hw, hb, hs⟩ :=
    dma_trace_props e c (r.clamp e.screen) fg bg ic r.y0 (r.y1 - r.y0).toNat
  refine ⟨?_, ?_, hs⟩
  · rw [hw]; omega
  · rw [hb]; omega

/-- Witness for C2 on a concrete three-scanline rectangle. -/
theorem C2_witness :
    (countWaits (loader_rust_dma2d extW ⟨0, 0, 4, 3⟩ 1 2 300 false none) : Int) =
      ((⟨0, 0, 4, 3⟩ : Rect).y1 - (⟨0, 0, 4, 3⟩ : Rect).y0) + 1 ∧
    (countBlends (loader_rust_dma2d extW ⟨0, 0, 4, 3⟩ 1 2 300 false none) : Int) =
      (⟨0, 0, 4, 3⟩ : Rect).y1 - (⟨0, 0, 4, 3⟩ : Rect).y0 ∧
    checkFrom [] (loader_rust_dma2d extW ⟨0, 0, 4, 3⟩ 1 2 300 false none) = true :=
  C2_dma2d_waits_and_slot_safety extW ⟨0, 0, 4, 3⟩ 1 2 300 false none (by decide)

/-- Peeling one even and one odd offset from the closed-form store list. -/
theorem oddStores_two_step (f : Int → Nat) (rx0 : Int) (j n : Nat) (hj : j % 2 = 0) :
    oddStores f rx0 j (n + 2) =
      ((j + 1) / 2, (f (rx0 + (j : Int)) ||| (f (rx0 + (j : Int) + 1) <<< 4)) % 256) ::
        oddStores f rx0 (j + 2) n := by
  unfold oddStores
  rw [show List.range' j (n + 2) = j :: (j + 1) :: List.range' (j + 2) n from rfl]
  have hj1 : ¬(j % 2 = 1) := by omega
  have hj2 : (j + 1) % 2 = 1 := by omega
  rw [List.filter_cons, List.filter_cons, if_neg (by simpa using hj1),
    if_pos (by simpa using hj2), List.map_cons]
  have e1 : rx0 + ((j + 1 : Nat) : Int) - 1 = rx0 + (j : Int) := by push_cast; ring
  have e2 : rx0 + ((j + 1 : Nat) : Int) = rx0 + (j : Int) + 1 := by push_cast; ring
  rw [e1, e2]

/-- The store list of the dma2d inner loop in closed form: starting at an
even offset the loop stores exactly the odd-offset packed bytes; starting
at an odd offset with the previous intensity in hand, the store list is the
one of the enclosing even-aligned range. -/
theorem line_loop_stores (f : Int → Nat) (rx0 : Int) :
    ∀ (n j prev : Nat),
      (j % 2 = 0 → (line_loop f rx0 j n prev).2 = oddStores f rx0 j n) ∧
      (j % 2 = 1 → prev = f (rx0 + (j : Int) - 1) →
        (line_loop f rx0 j n prev).2 = oddStores f rx0 (j - 1) (n + 1)) := by
  intro n
  induction n with
  | zero =>
    intro j prev
    constructor
    · intro hj
      simp [line_loop, oddStores]
    · intro hj hprev
      have hodd : ¬((j - 1) % 2 = 1) := by omega
      simp [line_loop, oddStores, List.range', hodd]
  | succ n ih =>
    intro j prev
    constructor
    · intro hj
      rw [show line_loop f rx0 j (n + 1) prev =
          line_loop f rx0 (j + 1) n (f (rx0 + (j : Int))) from by
        rw [line_loop]
        rw [if_pos (by simpa using hj)]]
      have hj1 : (j + 1) % 2 = 1 := by omega
      have hprev : f (rx0 + (j : Int)) = f (rx0 + ((j + 1 : Nat) : Int) - 1) := by
        have e1 : rx0 + ((j + 1 : Nat) : Int) - 1 = rx0 + (j : Int) := by push_cast; ring
        rw [e1]
      have h := (ih (j + 1) (f (rx0 + (j : Int)))).2 hj1 hprev
      rw [h]
      have e2 : j + 1 - 1 = j := by omega
      rw [e2]
    · intro hj hprev
      have hj0 : ¬(j % 2 = 0) := by omega
      rw [show line_loop f rx0 j (n + 1) prev =
          ((line_loop f rx0 (j + 1) n prev).1,
            (j / 2, (prev ||| (f (rx0 + (j : Int)) <<< 4)) % 256) ::
              (line_loop f rx0 (j + 1) n prev).2) from by
        rw [line_loop]
        rw [if_neg (by simpa using hj0)]]
      have hj1 : (j + 1) % 2 = 0 := by omega
      have h := (ih (j + 1) prev).1 hj1
      have hje : 1 ≤ j := by omega
      have hsub : (j - 1) % 2 = 0 := by omega
      rw [show oddStores f rx0 (j - 1) (n + 1 + 1) = oddStores f rx0 (j - 1) (n + 2) from rfl]
      rw [oddStores_two_step f rx0 (j - 1) n hsub]
      have e3 : j - 1 + 1 = j := by omega
      have e4 : j - 1 + 2 = j + 1 := by omega
      have e5 : rx0 + ((j - 1 : Nat) : Int) = rx0 + (j : Int) - 1 := by
        push_cast [hje]
        ring
      have e6 : rx0 + (j : Int) - 1 + 1 = rx0 + (j : Int) := by ring
      rw [e3, e4, e5, e6, h, hprev]

/-- C10: in the dma2d inner loop the packed bytes are stored only while
processing a column at odd offset, the even-offset intensity in the low
nibble and the odd-offset intensity in the high nibble (the closed form
oddStores); consequently, for a row of odd width the intensity of the final
column (which sits at an even offset) is never written: any two intensity
functions differing only there produce identical store lists. -/
theorem C10_line_buffer_odd_offset_stores (f g : Int → Nat) (rx0 : Int) (n : Nat) :
    (line_loop f rx0 0 n 0).2 = oddStores f rx0 0 n ∧
    (n % 2 = 1 → (∀ x : Int, x ≠ rx0 + (n : Int) - 1 → f x = g x) →
      (line_loop f rx0 0 n 0).2 = (line_loop g rx0 0 n 0).2) := by
  have hf := (line_loop_stores f rx0 n 0 0).1 (by norm_num)
  have hg := (line_loop_stores g rx0 n 0 0).1 (by norm_num)
  refine ⟨hf, fun hodd hagree => ?_⟩
  rw [hf, hg]
  unfold oddStores
  apply List.map_congr_left
  intro k hk
  have hk2 := List.mem_filter.mp hk
  have hko : k % 2 = 1 := by simpa using hk2.2
  have hkn : k < n := by
    have hm := List.mem_range'_1.mp hk2.1
    omega
  have h1 : (rx0 + (k : Int) - 1) ≠ rx0 + (n : Int) - 1 := by
    have hne : k ≠ n := by omega
    omega
  have h2 : (rx0 + (k : Int)) ≠ rx0 + (n : Int) - 1 := by
    have hne : k ≠ n - 1 := by omega
    have hn1 : 1 ≤ n := by omega
    omega
  rw [hagree _ h1, hagree _ h2]

/-- Intensity functions used by the C10 witness: they agree everywhere
except at column 4, the final column of a width-5 row starting at 0. -/
def fW : Int → Nat := fun _ => 1

/-- Second intensity function of the C10 witness, differing from the first
only at column 4. -/
def gW : Int → Nat := fun x => if x = 4 then 7 else 1

/-- Witness for C10 on a width-5 row. -/
theorem C10_witness :
    (line_loop fW 0 0 5 0).2 = oddStores fW 0 0 5 ∧
    (line_loop fW 0 0 5 0).2 = (line_loop gW 0 0 5 0).2 :=
  ⟨(C10_line_buffer_odd_offset_stores fW gW 0 5).1,
   (C10_line_buffer_odd_offset_stores fW gW 0 5).2 (by decide)
     (fun x hx => by
       have hx4 : x ≠ 4 := by omega
       simp [fW, gW, hx4])⟩

/-- The spec invariants on the loader geometry: the six squared-distance
thresholds are strictly increasing, and the three anti-alias ramp bands are
at least as wide as the intensity range they span (which the squared-radius
formulas of the source guarantee for any radii of at least a few pixels:
the band widths are about twice the radius). -/
def GoodGeom (g : LoaderGeometry) : Prop :=
  g.IN_INNER_ANTI < g.INNER_MIN ∧ g.INNER_MIN < g.INNER_MAX ∧
  g.INNER_MAX < g.INNER_OUTER_ANTI ∧ g.INNER_OUTER_ANTI < g.OUTER_OUT_ANTI ∧
  g.OUTER_OUT_ANTI < g.OUTER_MAX ∧ 15 ≤ g.INNER_MIN - g.IN_INNER_ANTI ∧
  10 ≤ g.INNER_OUTER_ANTI - g.INNER_MAX ∧ 15 ≤ g.OUTER_MAX - g.OUTER_OUT_ANTI

instance (g : LoaderGeometry) : Decidable (GoodGeom g) := by
  unfold GoodGeom
  infer_instance

/-- The u8 cast is the identity on values already in u8 range. -/
theorem u8cast_eq_toNat (x : Int) (h0 : 0 ≤ x) (h1 : x < 256) : u8cast x = x.toNat := by
  unfold u8cast
  rw [Int.emod_eq_of_lt h0 h1]

/-- The u8 subtraction does not wrap when the subtrahend is in range. -/
theorem u8sub_eq (a b : Nat) (hb : b ≤ a) (ha : a < 256) : u8sub a b = a - b := by
  unfold u8sub
  rw [Int.emod_eq_of_lt (by omega) (by omega)]
  omega

/-- The scaled ramp quotient is nonnegative from the band start on. -/
theorem ramp_nonneg (m a b d : Int) (hm : 0 ≤ m) (hab : a < b) (h1 : a ≤ d) :
    0 ≤ m * (d - a) / (b - a) :=
  Int.ediv_nonneg (mul_nonneg hm (by omega)) (by omega)

/-- The scaled ramp quotient never exceeds its scale up to the band end. -/
theorem ramp_le (m a b d : Int) (hm : 0 ≤ m) (hab : a < b) (h2 : d ≤ b) :
    m * (d - a) / (b - a) ≤ m := by
  have h3 : m * (d - a) ≤ m * (b - a) := mul_le_mul_of_nonneg_left (by omega) hm
  calc m * (d - a) / (b - a) ≤ m * (b - a) / (b - a) := Int.ediv_le_ediv (by omega) h3
    _ = m := Int.mul_ediv_cancel m (by omega)

/-- The scaled ramp quotient is monotone in the distance. -/
theorem ramp_mono (m a b d₁ d₂ : Int) (hm : 0 ≤ m) (hab : a < b) (h : d₁ ≤ d₂) :
    m * (d₁ - a) / (b - a) ≤ m * (d₂ - a) / (b - a) :=
  Int.ediv_le_ediv (by omega) (mul_le_mul_of_nonneg_left (by omega) hm)

/-- When the band is at least as wide as the scale, the ramp quotient grows
by at most one per unit of distance. -/
theorem ramp_step (m a b d : Int) (hw : m ≤ b - a) (hab : a < b) :
    m * (d + 1 - a) / (b - a) ≤ m * (d - a) / (b - a) + 1 := by
  have h0 : m * (d + 1 - a) = m * (d - a) + m := by ring
  have h1 : m * (d + 1 - a) ≤ m * (d - a) + 1 * (b - a) := by
    rw [h0]
    linarith
  calc m * (d + 1 - a) / (b - a) ≤ (m * (d - a) + 1 * (b - a)) / (b - a) :=
      Int.ediv_le_ediv (by omega) h1
    _ = m * (d - a) / (b - a) + 1 := Int.add_mul_ediv_right _ 1 (by omega)

/-- At the band end the ramp quotient reaches the scale exactly. -/
theorem ramp_top (m a b : Int) (hab : a < b) : m * (b - a) / (b - a) = m :=
  Int.mul_ediv_cancel m (by omega)

/-- The scale divided by a band at least that wide is at most one. -/
theorem ramp_unit (m w : Int) (h1 : 0 ≤ m) (h2 : m ≤ w) (h3 : 0 < w) :
    0 ≤ m / w ∧ m / w ≤ 1 := by
  constructor
  · exact Int.ediv_nonneg h1 (by omega)
  · calc m / w ≤ w / w := Int.ediv_le_ediv h3 h2
      _ = 1 := Int.ediv_self (by omega)

/-- Inside the inner disk and the inner ramp the two membership branches of
the classifier coincide. -/
theorem inact_eq_act_low (g : LoaderGeometry) (d : Int) (h : d ≤ g.INNER_MIN) :
    inactive_intensity g d = active_intensity g d := by
  unfold active_intensity inactive_intensity
  by_cases h1 : d ≤ g.IN_INNER_ANTI
  · rw [if_pos h1, if_pos h1]
  · rw [if_neg h1, if_neg h1, if_pos h, if_pos h]

/-- Active branch, inner disk: intensity 0. -/
theorem act_low (g : LoaderGeometry) (d : Int) (h : d ≤ g.IN_INNER_ANTI) :
    active_intensity g d = 0 := by
  unfold active_intensity
  rw [if_pos h]

/-- Active branch, inner anti-alias ramp. -/
theorem act_ramp (g : LoaderGeometry) (d : Int) (hg : GoodGeom g)
    (h1 : g.IN_INNER_ANTI < d) (h2 : d ≤ g.INNER_MIN) :
    active_intensity g d =
      (15 * (d - g.IN_INNER_ANTI) / (g.INNER_MIN - g.IN_INNER_ANTI)).toNat := by
  obtain ⟨hab, hbc, hcd, hde, hef, w1, w2, w3⟩ := hg
  unfold active_intensity
  rw [if_neg (by omega), if_pos h2,
    Int.tdiv_eq_ediv (mul_nonneg (by norm_num) (by omega)) (by omega)]
  have hq0 := ramp_nonneg 15 g.IN_INNER_ANTI g.INNER_MIN d (by norm_num) hab (by omega)
  have hq15 := ramp_le 15 g.IN_INNER_ANTI g.INNER_MIN d (by norm_num) hab h2
  exact u8cast_eq_toNat _ hq0 (by omega)

/-- Active branch, plateau between the inner ramp and the outer ramp. -/
theorem act_plateau (g : LoaderGeometry) (d : Int) (hg : GoodGeom g)
    (h1 : g.INNER_MIN < d) (h2 : d ≤ g.OUTER_OUT_ANTI) :
    active_intensity g d = 15 := by
  obtain ⟨hab, hbc, hcd, hde, hef, w1, w2, w3⟩ := hg
  unfold active_intensity
  rw [if_neg (by omega), if_neg (by omega), if_pos h2]

/-- Active branch, outer anti-alias ramp. -/
theorem act_down (g : LoaderGeometry) (d : Int) (hg : GoodGeom g)
    (h1 : g.OUTER_OUT_ANTI < d) (h2 : d ≤ g.OUTER_MAX) :
    active_intensity g d =
      (15 - 15 * (d - g.OUTER_OUT_ANTI) / (g.OUTER_MAX - g.OUTER_OUT_ANTI)).toNat := by
  obtain ⟨hab, hbc, hcd, hde, hef, w1, w2, w3⟩ := hg
  unfold active_intensity
  rw [if_neg (by omega), if_neg (by omega), if_neg (by omega), if_pos h2,
    Int.tdiv_eq_ediv (mul_nonneg (by norm_num) (by omega)) (by omega)]
  have hq0 := ramp_nonneg 15 g.OUTER_OUT_ANTI g.OUTER_MAX d (by norm_num) hef (by omega)
  have hq15 := ramp_le 15 g.OUTER_OUT_ANTI g.OUTER_MAX d (by norm_num) hef h2
  exact u8cast_eq_toNat _ (by omega) (by omega)

/-- Active branch, outside the outer edge: intensity 0. -/
theorem act_high (g : LoaderGeometry) (d : Int) (hg : GoodGeom g)
    (h : g.OUTER_MAX < d) : active_intensity g d = 0 := by
  obtain ⟨hab, hbc, hcd, hde, hef, w1, w2, w3⟩ := hg
  unfold active_intensity
  rw [if_neg (by omega), if_neg (by omega), if_neg (by omega), if_neg (by omega)]

/-- Active branch: intensity 15 everywhere from the top of the inner ramp to
the start of the outer ramp, the band end included. -/
theorem act_eq15 (g : LoaderGeometry) (d : Int) (hg : GoodGeom g)
    (h1 : g.INNER_MIN ≤ d) (h2 : d ≤ g.OUTER_OUT_ANTI) :
    active_intensity g d = 15 := by
  rcases eq_or_lt_of_le h1 with heq | hlt
  · obtain ⟨hab, hbc, hcd, hde, hef, w1, w2, w3⟩ := hg
    rw [← heq] at *
    rw [act_ramp g g.INNER_MIN ⟨hab, hbc, hcd, hde, hef, w1, w2, w3⟩ hab le_rfl,
      ramp_top 15 g.IN_INNER_ANTI g.INNER_MIN hab]
    rfl
  · exact act_plateau g d hg hlt h2

/-- Inactive branch, plateau at 15 after the inner ramp. -/
theorem inact_plateau15 (g : LoaderGeometry) (d : Int) (hg : GoodGeom g)
    (h1 : g.INNER_MIN < d) (h2 : d ≤ g.INNER_MAX) :
    inactive_intensity g d = 15 := by
  obtain ⟨hab, hbc, hcd, hde, hef, w1, w2, w3⟩ := hg
  unfold inactive_intensity
  rw [if_neg (by omega), if_neg (by omega), if_pos h2]

/-- Inactive branch, ramp from 15 down to 5 between the inner plateau and
the track plateau. -/
theorem inact_downA (g : LoaderGeometry) (d : Int) (hg : GoodGeom g)
    (h1 : g.INNER_MAX < d) (h2 : d ≤ g.INNER_OUTER_ANTI) :
    inactive_intensity g d =
      (15 - 10 * (d - g.INNER_MAX) / (g.INNER_OUTER_ANTI - g.INNER_MAX)).toNat := by
  obtain ⟨hab, hbc, hcd, hde, hef, w1, w2, w3⟩ := hg
  unfold inactive_intensity
  rw [if_neg (by omega), if_neg (by omega), if_neg (by omega), if_pos h2,
    Int.tdiv_eq_ediv (mul_nonneg (by norm_num) (by omega)) (by omega)]
  have hq0 := ramp_nonneg 10 g.INNER_MAX g.INNER_OUTER_ANTI d (by norm_num) hcd (by omega)
  have hq10 := ramp_le 10 g.INNER_MAX g.INNER_OUTER_ANTI d (by norm_num) hcd h2
  exact u8cast_eq_toNat _ (by omega) (by omega)

/-- Inactive branch, the dim track plateau at 5. -/
theorem inact_plateau5 (g : LoaderGeometry) (d : Int) (hg : GoodGeom g)
    (h1 : g.INNER_OUTER_ANTI < d) (h2 : d ≤ g.OUTER_OUT_ANTI) :
    inactive_intensity g d = 5 := by
  obtain ⟨hab, hbc, hcd, hde, hef, w1, w2, w3⟩ := hg
  unfold inactive_intensity
  rw [if_neg (by omega), if_neg (by omega), if_neg (by omega), if_neg (by omega), if_pos h2]

/-- Inactive branch, outer anti-alias ramp from 5 down to 0. -/
theorem inact_downB (g : LoaderGeometry) (d : Int) (hg : GoodGeom g)
    (h1 : g.OUTER_OUT_ANTI < d) (h2 : d ≤ g.OUTER_MAX) :
    inactive_intensity g d =
      (5 - 5 * (d - g.OUTER_OUT_ANTI) / (g.OUTER_MAX - g.OUTER_OUT_ANTI)).toNat := by
  obtain ⟨hab, hbc, hcd, hde, hef, w1, w2, w3⟩ := hg
  unfold inactive_intensity
  rw [if_neg (by omega), if_neg (by omega), if_neg (by omega), if_neg (by omega),
    if_neg (by omega), if_pos h2,
    Int.tdiv_eq_ediv (mul_nonneg (by norm_num) (by omega)) (by omega)]
  have hq0 := ramp_nonneg 5 g.OUTER_OUT_ANTI g.OUTER_MAX d (by norm_num) hef (by omega)
  have hq5 := ramp_le 5 g.OUTER_OUT_ANTI g.OUTER_MAX d (by norm_num) hef h2
  rw [u8cast_eq_toNat _ hq0 (by omega),
    u8sub_eq 5 (5 * (d - g.OUTER_OUT_ANTI) / (g.OUTER_MAX - g.OUTER_OUT_ANTI)).toNat
      (by omega) (by omega)]
  omega

/-- Inactive branch, outside the outer edge: intensity 0. -/
theorem inact_high (g : LoaderGeometry) (d : Int) (hg : GoodGeom g)
    (h : g.OUTER_MAX < d) : inactive_intensity g d = 0 := by
  obtain ⟨hab, hbc, hcd, hde, hef, w1, w2, w3⟩ := hg
  unfold inactive_intensity
  rw [if_neg (by omega), if_neg (by omega), if_neg (by omega), if_neg (by omega),
    if_neg (by omega), if_neg (by omega)]

/-- Inactive branch: intensity 15 from the top of the inner ramp through the
inner plateau, the band end included. -/
theorem inact_eq15 (g : LoaderGeometry) (d : Int) (hg : GoodGeom g)
    (h1 : g.INNER_MIN ≤ d) (h2 : d ≤ g.INNER_MAX) :
    inactive_intensity g d = 15 := by
  rcases eq_or_lt_of_le h1 with heq | hlt
  · obtain ⟨hab, hbc, hcd, hde, hef, w1, w2, w3⟩ := hg
    rw [← heq]
    rw [inact_eq_act_low g g.INNER_MIN le_rfl,
      act_ramp g g.INNER_MIN ⟨hab, hbc, hcd, hde, hef, w1, w2, w3⟩ hab le_rfl,
      ramp_top 15 g.IN_INNER_ANTI g.INNER_MIN hab]
    rfl
  · exact inact_plateau15 g d hg hlt h2

/-- Active branch: nondecreasing up to the top of the inner ramp. -/
theorem act_mono_up (g : LoaderGeometry) (d₁ d₂ : Int) (hg : GoodGeom g)
    (h12 : d₁ ≤ d₂) (h2B : d₂ ≤ g.INNER_MIN) :
    active_intensity g d₁ ≤ active_intensity g d₂ := by
  have hc := hg
  obtain ⟨hab, hbc, hcd, hde, hef, w1, w2, w3⟩ := hc
  rcases le_or_lt d₁ g.IN_INNER_ANTI with h | h
  · rw [act_low g d₁ h]
    exact Nat.zero_le _
  · rw [act_ramp g d₁ hg h (by omega), act_ramp g d₂ hg (by omega) h2B]
    have hm := ramp_mono 15 g.IN_INNER_ANTI g.INNER_MIN d₁ d₂ (by norm_num) hab h12
    omega

/-- Inactive branch: nondecreasing up to the top of the inner ramp. -/
theorem inact_mono_up (g : LoaderGeometry) (d₁ d₂ : Int) (hg : GoodGeom g)
    (h12 : d₁ ≤ d₂) (h2B : d₂ ≤ g.INNER_MIN) :
    inactive_intensity g d₁ ≤ inactive_intensity g d₂ := by
  rw [inact_eq_act_low g d₁ (by omega), inact_eq_act_low g d₂ h2B]
  exact act_mono_up g d₁ d₂ hg h12 h2B

/-- Active branch: nonincreasing from the top of the inner ramp on. -/
theorem act_mono_down (g : LoaderGeometry) (d₁ d₂ : Int) (hg : GoodGeom g)
    (h1 : g.INNER_MIN ≤ d₁) (h12 : d₁ ≤ d₂) :
    active_intensity g d₂ ≤ active_intensity g d₁ := by
  have hc := hg
  obtain ⟨hab, hbc, hcd, hde, hef, w1, w2, w3⟩ := hc
  rcases le_or_lt d₂ g.OUTER_OUT_ANTI with h2E | h2E
  · rw [act_eq15 g d₁ hg h1 (by omega), act_eq15 g d₂ hg (by omega) h2E]
  rcases le_or_lt d₂ g.OUTER_MAX with h2F | h2F
  · rw [act_down g d₂ hg h2E h2F]
    have hq0 := ramp_nonneg 15 g.OUTER_OUT_ANTI g.OUTER_MAX d₂ (by norm_num) hef (by omega)
    rcases le_or_lt d₁ g.OUTER_OUT_ANTI with h1E | h1E
    · rw [act_eq15 g d₁ hg h1 h1E]
      omega
    · rw [act_down g d₁ hg h1E (by omega)]
      have hm := ramp_mono 15 g.OUTER_OUT_ANTI g.OUTER_MAX d₁ d₂ (by norm_num) hef h12
      omega
  · rw [act_high g d₂ hg h2F]
    exact Nat.zero_le _

/-- Inactive branch: nonincreasing from the top of the inner ramp on. -/
theorem inact_mono_down (g : LoaderGeometry) (d₁ d₂ : Int) (hg : GoodGeom g)
    (h1 : g.INNER_MIN ≤ d₁) (h12 : d₁ ≤ d₂) :
    inactive_intensity g d₂ ≤ inactive_intensity g d₁ := by
  have hc := hg
  obtain ⟨hab, hbc, hcd, hde, hef, w1, w2, w3⟩ := hc
  rcases le_or_lt d₂ g.INNER_MAX with h2C | h2C
  · rw [inact_eq15 g d₁ hg h1 (by omega), inact_eq15 g d₂ hg (by omega) h2C]
  rcases le_or_lt d₂ g.INNER_OUTER_ANTI with h2D | h2D
  · rw [inact_downA g d₂ hg h2C h2D]
    have hq0 := ramp_nonneg 10 g.INNER_MAX g.INNER_OUTER_ANTI d₂ (by norm_num) hcd (by omega)
    rcases le_or_lt d₁ g.INNER_MAX with h1C | h1C
    · rw [inact_eq15 g d₁ hg h1 h1C]
      omega
    · rw [inact_downA g d₁ hg h1C (by omega)]
      have hm := ramp_mono 10 g.INNER_MAX g.INNER_OUTER_ANTI d₁ d₂ (by norm_num) hcd h12
      omega
  rcases le_or_lt d₂ g.OUTER_OUT_ANTI with h2E | h2E
  · rw [inact_plateau5 g d₂ hg h2D h2E]
    rcases le_or_lt d₁ g.INNER_MAX with h1C | h1C
    · rw [inact_eq15 g d₁ hg h1 h1C]
      omega
    rcases le_or_lt d₁ g.INNER_OUTER_ANTI with h1D | h1D
    · rw [inact_downA g d₁ hg h1C h1D]
      have hq10 := ramp_le 10 g.INNER_MAX g.INNER_OUTER_ANTI d₁ (by norm_num) hcd h1D
      omega
    · rw [inact_plateau5 g d₁ hg h1D (by omega)]
  rcases le_or_lt d₂ g.OUTER_MAX with h2F | h2F
  · rw [inact_downB g d₂ hg h2E h2F]
    have hqB0 := ramp_nonneg 5 g.OUTER_OUT_ANTI g.OUTER_MAX d₂ (by norm_num) hef (by omega)
    rcases le_or_lt d₁ g.INNER_MAX with h1C | h1C
    · rw [inact_eq15 g d₁ hg h1 h1C]
      omega
    rcases le_or_lt d₁ g.INNER_OUTER_ANTI with h1D | h1D
    · rw [inact_downA g d₁ hg h1C h1D]
      have hq10 := ramp_le 10 g.INNER_MAX g.INNER_OUTER_ANTI d₁ (by norm_num) hcd h1D
      omega
    rcases le_or_lt d₁ g.OUTER_OUT_ANTI with h1E | h1E
    · rw [inact_plateau5 g d₁ hg h1D h1E]
      omega
    · rw [inact_downB g d₁ hg h1E (by omega)]
      have hm := ramp_mono 5 g.OUTER_OUT_ANTI g.OUTER_MAX d₁ d₂ (by norm_num) hef h12
      omega
  · rw [inact_high g d₂ hg h2F]
    exact Nat.zero_le _

/-- Active branch: unit distance changes the intensity by at most one step,
at band boundaries included. -/
theorem act_step (g : LoaderGeometry) (d : Int) (hg : GoodGeom g) :
    active_intensity g (d + 1) ≤ active_intensity g d + 1 ∧
    active_intensity g d ≤ active_intensity g (d + 1) + 1 := by
  have hc := hg
  obtain ⟨hab, hbc, hcd, hde, hef, w1, w2, w3⟩ := hc
  rcases le_or_lt (d + 1) g.INNER_MIN with hub | hub
  · constructor
    · rcases le_or_lt (d + 1) g.IN_INNER_ANTI with ha | ha
      · rw [act_low g (d + 1) ha]
        omega
      · rcases le_or_lt d g.IN_INNER_ANTI with hda | hda
        · rw [act_low g d hda, act_ramp g (d + 1) hg ha hub]
          have hdA : d = g.IN_INNER_ANTI := by omega
          rw [hdA]
          have e : 15 * (g.IN_INNER_ANTI + 1 - g.IN_INNER_ANTI) = 15 := by ring
          rw [e]
          have hu := ramp_unit 15 (g.INNER_MIN - g.IN_INNER_ANTI) (by norm_num) w1 (by omega)
          omega
        · rw [act_ramp g d hg hda (by omega), act_ramp g (d + 1) hg (by omega) hub]
          have hs := ramp_step 15 g.IN_INNER_ANTI g.INNER_MIN d w1 hab
          have hq0 := ramp_nonneg 15 g.IN_INNER_ANTI g.INNER_MIN d (by norm_num) hab (by omega)
          omega
    · have hm := act_mono_up g d (d + 1) hg (by omega) hub
      omega
  · have hBd : g.INNER_MIN ≤ d := by omega
    constructor
    · have hm := act_mono_down g d (d + 1) hg hBd (by omega)
      omega
    · rcases le_or_lt d g.OUTER_OUT_ANTI with hdE | hdE
      · rcases le_or_lt (d + 1) g.OUTER_OUT_ANTI with hd1E | hd1E
        · rw [act_eq15 g d hg hBd hdE, act_eq15 g (d + 1) hg (by omega) hd1E]
          omega
        · have hdeq : d = g.OUTER_OUT_ANTI := by omega
          rw [hdeq, act_eq15 g g.OUTER_OUT_ANTI hg (by omega) le_rfl,
            act_down g (g.OUTER_OUT_ANTI + 1) hg (by omega) (by omega)]
          have e : 15 * (g.OUTER_OUT_ANTI + 1 - g.OUTER_OUT_ANTI) = 15 := by ring
          rw [e]
          have hu := ramp_unit 15 (g.OUTER_MAX - g.OUTER_OUT_ANTI) (by norm_num) w3 (by omega)
          omega
      · rcases le_or_lt d g.OUTER_MAX with hdF | hdF
        · rcases le_or_lt (d + 1) g.OUTER_MAX with hd1F | hd1F
          · rw [act_down g d hg hdE hdF, act_down g (d + 1) hg (by omega) hd1F]
            have hs := ramp_step 15 g.OUTER_OUT_ANTI g.OUTER_MAX d w3 hef
            have hq0 := ramp_nonneg 15 g.OUTER_OUT_ANTI g.OUTER_MAX d (by norm_num) hef
              (by omega)
            have hq15 := ramp_le 15 g.OUTER_OUT_ANTI g.OUTER_MAX d (by norm_num) hef hdF
            omega
          · have hdeq : d = g.OUTER_MAX := by omega
            rw [hdeq, act_down g g.OUTER_MAX hg (by omega) le_rfl,
              ramp_top 15 g.OUTER_OUT_ANTI g.OUTER_MAX hef]
            omega
        · rw [act_high g d hg hdF]
          omega

/-- Inactive branch: unit distance changes the intensity by at most one
step, at band boundaries included. -/
theorem inact_step (g : LoaderGeometry) (d : Int) (hg : GoodGeom g) :
    inactive_intensity g (d + 1) ≤ inactive_intensity g d + 1 ∧
    inactive_intensity g d ≤ inactive_intensity g (d + 1) + 1 := by
  have hc := hg
  obtain ⟨hab, hbc, hcd, hde, hef, w1, w2, w3⟩ := hc
  rcases le_or_lt (d + 1) g.INNER_MIN with hub | hub
  · constructor
    · rw [inact_eq_act_low g (d + 1) hub, inact_eq_act_low g d (by omega)]
      exact (act_step g d hg).1
    · rw [inact_eq_act_low g (d + 1) hub, inact_eq_act_low g d (by omega)]
      exact (act_step g d hg).2
  · have hBd : g.INNER_MIN ≤ d := by omega
    constructor
    · have hm := inact_mono_down g d (d + 1) hg hBd (by omega)
      omega
    · rcases le_or_lt d g.INNER_MAX with hdC | hdC
      · rcases le_or_lt (d + 1) g.INNER_MAX with hd1C | hd1C
        · rw [inact_eq15 g d hg hBd hdC, inact_eq15 g (d + 1) hg (by omega) hd1C]
          omega
        · have hdeq : d = g.INNER_MAX := by omega
          rw [hdeq, inact_eq15 g g.INNER_MAX hg (by omega) le_rfl,
            inact_downA g (g.INNER_MAX + 1) hg (by omega) (by omega)]
          have e : 10 * (g.INNER_MAX + 1 - g.INNER_MAX) = 10 := by ring
          rw [e]
          have hu := ramp_unit 10 (g.INNER_OUTER_ANTI - g.INNER_MAX) (by norm_num) w2 (by omega)
          omega
      · rcases le_or_lt d g.INNER_OUTER_ANTI with hdD | hdD
        · rcases le_or_lt (d + 1) g.INNER_OUTER_ANTI with hd1D | hd1D
          · rw [inact_downA g d hg hdC hdD, inact_downA g (d + 1) hg (by omega) hd1D]
            have hs := ramp_step 10 g.INNER_MAX g.INNER_OUTER_ANTI d w2 hcd
            have hq0 := ramp_nonneg 10 g.INNER_MAX g.INNER_OUTER_ANTI d (by norm_num) hcd
              (by omega)
            have hq10 := ramp_le 10 g.INNER_MAX g.INNER_OUTER_ANTI d (by norm_num) hcd hdD
            omega
          · have hdeq : d = g.INNER_OUTER_ANTI := by omega
            rw [hdeq, inact_downA g g.INNER_OUTER_ANTI hg (by omega) le_rfl,
              ramp_top 10 g.INNER_MAX g.INNER_OUTER_ANTI hcd,
              inact_plateau5 g (g.INNER_OUTER_ANTI + 1) hg (by omega) (by omega)]
            omega
        · rcases le_or_lt d g.OUTER_OUT_ANTI with hdE | hdE
          · rcases le_or_lt (d + 1) g.OUTER_OUT_ANTI with hd1E | hd1E
            · rw [inact_plateau5 g d hg hdD hdE, inact_plateau5 g (d + 1) hg (by omega) hd1E]
              omega
            · have hdeq : d = g.OUTER_OUT_ANTI := by omega
              rw [hdeq, inact_plateau5 g g.OUTER_OUT_ANTI hg (by omega) le_rfl,
                inact_downB g (g.OUTER_OUT_ANTI + 1) hg (by omega) (by omega)]
              have e : 5 * (g.OUTER_OUT_ANTI + 1 - g.OUTER_OUT_ANTI) = 5 := by ring
              rw [e]
              have hu := ramp_unit 5 (g.OUTER_MAX - g.OUTER_OUT_ANTI) (by norm_num) (by omega)
                (by omega)
              omega
          · rcases le_or_lt d g.OUTER_MAX with hdF | hdF
            · rcases le_or_lt (d + 1) g.OUTER_MAX with hd1F | hd1F
              · rw [inact_downB g d hg hdE hdF, inact_downB g (d + 1) hg (by omega) hd1F]
                have hs := ramp_step 5 g.OUTER_OUT_ANTI g.OUTER_MAX d (by omega) hef
                have hq0 := ramp_nonneg 5 g.OUTER_OUT_ANTI g.OUTER_MAX d (by norm_num) hef
                  (by omega)
                have hq5 := ramp_le 5 g.OUTER_OUT_ANTI g.OUTER_MAX d (by norm_num) hef hdF
                omega
              · have hdeq : d = g.OUTER_MAX := by omega
                rw [hdeq, inact_downB g g.OUTER_MAX hg (by omega) le_rfl,
                  ramp_top 5 g.OUTER_OUT_ANTI g.OUTER_MAX hef]
                omega
            · rw [inact_high g d hg hdF]
              omega

/-- C4: for each membership branch of loader_get_pixel_color_idx, the
intensity as a function of the squared radial distance is monotonically
nondecreasing up to its peak at the top of the inner anti-alias band and
monotonically nonincreasing afterwards, and across every band boundary
(indeed at every unit distance step) it changes by at most one step. -/
theorem C4_intensity_band_monotone (g : LoaderGeometry) (hg : GoodGeom g) :
    (∀ d₁ d₂ : Int, d₁ ≤ d₂ → d₂ ≤ g.INNER_MIN →
      active_intensity g d₁ ≤ active_intensity g d₂ ∧
      inactive_intensity g d₁ ≤ inactive_intensity g d₂) ∧
    (∀ d₁ d₂ : Int, g.INNER_MIN ≤ d₁ → d₁ ≤ d₂ →
      active_intensity g d₂ ≤ active_intensity g d₁ ∧
      inactive_intensity g d₂ ≤ inactive_intensity g d₁) ∧
    (∀ d : Int,
      active_intensity g (d + 1) ≤ active_intensity g d + 1 ∧
      active_intensity g d ≤ active_intensity g (d + 1) + 1 ∧
      inactive_intensity g (d + 1) ≤ inactive_intensity g d + 1 ∧
      inactive_intensity g d ≤ inactive_intensity g (d + 1) + 1) :=
  ⟨fun d₁ d₂ h1 h2 => ⟨act_mono_up g d₁ d₂ hg h1 h2, inact_mono_up g d₁ d₂ hg h1 h2⟩,
   fun d₁ d₂ h1 h2 => ⟨act_mono_down g d₁ d₂ hg h1 h2, inact_mono_down g d₁ d₂ hg h1 h2⟩,
   fun d => ⟨(act_step g d hg).1, (act_step g d hg).2,
     (inact_step g d hg).1, (inact_step g d hg).2⟩⟩

/-- Witness for C4 on the concrete geometry, inside the inner ramp, across
the outer bands, and at a unit step over the outer boundary. -/
theorem C4_witness :
    (active_intensity geomT 1750 ≤ active_intensity geomT 1800 ∧
      inactive_intensity geomT 1750 ≤ inactive_intensity geomT 1800) ∧
    (active_intensity geomT 3000 ≤ active_intensity geomT 1900 ∧
      inactive_intensity geomT 3000 ≤ inactive_intensity geomT 1900) ∧
    active_intensity geomT (3430 + 1) ≤ active_intensity geomT 3430 + 1 :=
  ⟨(C4_intensity_band_monotone geomT (by decide)).1 1750 1800 (by decide) (by decide),
   (C4_intensity_band_monotone geomT (by decide)).2.1 1900 3000 (by decide) (by decide),
   ((C4_intensity_band_monotone geomT (by decide)).2.2 3430).1⟩

end Loader

